import Mathlib

/-!
Verification of `tools/build_ota_manifest.py`: a shallow embedding of the
manifest-construction pipeline (file discovery, content hashing, version
resolution, release staging, manifest serialization) together with theorems
about its behaviour.

Strings are modelled as Lean `String`s; all character-level operations are
defined over `String.data : List Char` so that every definition evaluates by
kernel reduction.  File systems, manifest files and snapshots are modelled
explicitly as data; Python exceptions become `Except`/`Option` results.
-/

namespace OTA

/-! ### Python string primitives (models of `str.strip`, `str.split`, `int`, `str.lower`) -/

/-- Characters stripped by Python's `str.strip()` (ASCII whitespace). -/
def pyIsSpace (c : Char) : Bool :=
  c = ' ' || c = '\t' || c = '\n' || c = '\x0d' || c = '\x0b' || c = '\x0c'

/-- Strip leading and trailing whitespace from a character list. -/
def pyStripChars (cs : List Char) : List Char :=
  ((cs.dropWhile pyIsSpace).reverse.dropWhile pyIsSpace).reverse

/-- Model of Python `s.strip()`. -/
def pyStrip (s : String) : String :=
  String.mk (pyStripChars s.data)

/-- Model of Python `s.split(sep)` for a single-character separator:
splitting the empty string yields `[[]]`, i.e. `[""]`. -/
def splitOnChar (sep : Char) : List Char → List (List Char)
  | [] => [[]]
  | c :: cs =>
    match splitOnChar sep cs with
    | [] => [[]]
    | r :: rs => if c = sep then [] :: r :: rs else (c :: r) :: rs

/-- ASCII decimal digit test. -/
def isAsciiDigit (c : Char) : Bool :=
  48 ≤ c.toNat && c.toNat ≤ 57

/-- Value of a list of decimal digits. -/
def digitsVal (cs : List Char) : Nat :=
  cs.foldl (fun a c => a * 10 + (c.toNat - 48)) 0

/-- Parse a non-empty all-digit character list. -/
def parseDigits (cs : List Char) : Option Nat :=
  if !cs.isEmpty && cs.all isAsciiDigit then some (digitsVal cs) else none

/-- Model of Python `int(s)` on character lists: surrounding whitespace is
ignored, an optional single sign is allowed, the rest must be decimal digits;
anything else raises `ValueError`, modelled as `none`. -/
def pyIntChars (cs : List Char) : Option Int :=
  match pyStripChars cs with
  | '+' :: rest => (parseDigits rest).map (fun n => (n : Int))
  | '-' :: rest => (parseDigits rest).map (fun n => -(n : Int))
  | rest => (parseDigits rest).map (fun n => (n : Int))

/-- Model of Python `int(s)` on strings. -/
def pyInt (s : String) : Option Int :=
  pyIntChars s.data

/-- Model of Python `s.lower()` (ASCII case folding). -/
def pyLower (s : String) : String :=
  String.mk (s.data.map Char.toLower)

/-! ### JSON values and the prior-manifest file state -/

/-- JSON values, as produced by `json.loads`. -/
inductive Json where
  | null
  | bool (b : Bool)
  | num (n : Int)
  | str (s : String)
  | arr (elems : List Json)
  | obj (kvs : List (String × Json))

/-- Model of `dict.get` on a JSON object's key/value list. -/
def jsonGet : List (String × Json) → String → Option Json
  | [], _ => none
  | (k, v) :: rest, key => if k = key then some v else jsonGet rest key

/-- State of the manifest file on disk, as seen by `load_existing_version`:
`none` — the file does not exist; `some none` — it exists but reading it or
parsing it as JSON raises; `some (some j)` — it exists and parses to `j`. -/
abbrev ManifestFile := Option (Option Json)

/-- Embedding of `load_existing_version`: returns the stripped `version`
field when the file exists, parses as JSON, and that field is a string that
is non-empty after stripping; every exception along the way is swallowed
(`except Exception: pass`) and yields `none`. -/
def load_existing_version (manifest_file : ManifestFile) : Option String :=
  match manifest_file with
  | none => none
  | some none => none
  | some (some (Json.obj kvs)) =>
    match jsonGet kvs "version" with
    | some (Json.str v) => if pyStrip v ≠ "" then some (pyStrip v) else none
    | _ => none
  | some (some _) => none

/-! ### Version bumping and resolution -/

/-- Embedding of `bump_patch`: strip, split on `"."`, zero-pad to three
components, parse the first three as integers (raising `ValueError`,
modelled as `Except.error`, if any fails), and rebuild with patch + 1. -/
def bump_patch (version : String) : Except String String :=
  let parts := splitOnChar '.' (pyStripChars version.data)
  let parts := parts ++ List.replicate (3 - parts.length) ['0']
  match parts with
  | p0 :: p1 :: p2 :: _ =>
    match pyIntChars p0, pyIntChars p1, pyIntChars p2 with
    | some major, some minor, some patch =>
      Except.ok (toString major ++ "." ++ toString minor ++ "." ++ toString (patch + 1))
    | _, _, _ =>
      Except.error ("Version must look like semver (e.g., 0.0.1). Got: " ++ version)
  | _ => Except.error ("Version must look like semver (e.g., 0.0.1). Got: " ++ version)

/-- The version-resolution branch of `main` when no truthy override is
present: bump the prior version when one was loaded, else `"0.0.1"`. -/
def resolve_from_prior (manifest_file : ManifestFile) : Except String String :=
  match load_existing_version manifest_file with
  | some existing => if existing ≠ "" then bump_patch existing else Except.ok "0.0.1"
  | none => Except.ok "0.0.1"

/-- Embedding of the `# Determine version` block of `main`: a truthy
(non-empty) `--version` argument is used as-is; otherwise the version is
resolved from the prior manifest. -/
def resolve_version (override : Option String) (manifest_file : ManifestFile) :
    Except String String :=
  match override with
  | some v => if v ≠ "" then Except.ok v else resolve_from_prior manifest_file
  | none => resolve_from_prior manifest_file

/-! ### SHA-256 (model of `hashlib.sha256`), over `Nat` with explicit mod 2^32 -/

/-- 2^32, the word modulus. -/
def w32 : Nat := 4294967296

/-- Bitwise AND of the low `fuel` bits. -/
def bAndGo : Nat → Nat → Nat → Nat
  | 0, _, _ => 0
  | fuel + 1, x, y => (x % 2) * (y % 2) + 2 * bAndGo fuel (x / 2) (y / 2)

/-- Bitwise XOR of the low `fuel` bits. -/
def bXorGo : Nat → Nat → Nat → Nat
  | 0, _, _ => 0
  | fuel + 1, x, y => (x + y) % 2 + 2 * bXorGo fuel (x / 2) (y / 2)

/-- 32-bit AND. -/
def band32 (x y : Nat) : Nat := bAndGo 32 x y

/-- 32-bit XOR. -/
def bxor32 (x y : Nat) : Nat := bXorGo 32 x y

/-- 32-bit complement. -/
def bnot32 (x : Nat) : Nat := (w32 - 1) - x % w32

/-- Right rotation of a 32-bit word by `k`. -/
def rotr32 (k x : Nat) : Nat := x % w32 / 2 ^ k + x % w32 % 2 ^ k * 2 ^ (32 - k)

/-- Logical right shift of a 32-bit word by `k`. -/
def shr32 (k x : Nat) : Nat := x % w32 / 2 ^ k

/-- SHA-256 Σ0. -/
def bigSigma0 (x : Nat) : Nat := bxor32 (bxor32 (rotr32 2 x) (rotr32 13 x)) (rotr32 22 x)

/-- SHA-256 Σ1. -/
def bigSigma1 (x : Nat) : Nat := bxor32 (bxor32 (rotr32 6 x) (rotr32 11 x)) (rotr32 25 x)

/-- SHA-256 σ0. -/
def smallSigma0 (x : Nat) : Nat := bxor32 (bxor32 (rotr32 7 x) (rotr32 18 x)) (shr32 3 x)

/-- SHA-256 σ1. -/
def smallSigma1 (x : Nat) : Nat := bxor32 (bxor32 (rotr32 17 x) (rotr32 19 x)) (shr32 10 x)

/-- SHA-256 choice function. -/
def chFun (e f g : Nat) : Nat := bxor32 (band32 e f) (band32 (bnot32 e) g)

/-- SHA-256 majority function. -/
def majFun (a b c : Nat) : Nat := bxor32 (bxor32 (band32 a b) (band32 a c)) (band32 b c)

/-- The eight 32-bit words of a SHA-256 state. -/
structure Hash8 where
  h0 : Nat
  h1 : Nat
  h2 : Nat
  h3 : Nat
  h4 : Nat
  h5 : Nat
  h6 : Nat
  h7 : Nat

/-- SHA-256 initial state. -/
def initH : Hash8 :=
  ⟨1779033703, 3144134277, 1013904242,
   2773480762, 1359893119, 2600822924,
   528734635, 1541459225⟩

/-- SHA-256 round constants. -/
def roundK : List Nat :=
  [1116352408, 1899447441, 3049323471, 3921009573, 961987163,
   1508970993, 2453635748, 2870763221, 3624381080, 310598401,
   607225278, 1426881987, 1925078388, 2162078206, 2614888103,
   3248222580, 3835390401, 4022224774, 264347078, 604807628,
   770255983, 1249150122, 1555081692, 1996064986, 2554220882,
   2821834349, 2952996808, 3210313671, 3336571891, 3584528711,
   113926993, 338241895, 666307205, 773529912, 1294757372,
   1396182291, 1695183700, 1986661051, 2177026350, 2456956037,
   2730485921, 2820302411, 3259730800, 3345764771, 3516065817,
   3600352804, 4094571909, 275423344, 430227734, 506948616,
   659060556, 883997877, 958139571, 1322822218, 1537002063,
   1747873779, 1955562222, 2024104815, 2227730452, 2361852424,
   2428436474, 2756734187, 3204031479, 3329325298]

/-- Split a list into consecutive chunks of `n` elements (fuel-based so that
it evaluates by kernel reduction); the final chunk may be shorter.  Models
`iter(lambda: f.read(n), b"")`. -/
def chunksGo {α : Type} : Nat → Nat → List α → List (List α)
  | 0, _, _ => []
  | fuel + 1, n, l => if l.isEmpty || n == 0 then [] else l.take n :: chunksGo fuel n (l.drop n)

/-- Chunking with enough fuel to consume the whole list. -/
def chunks {α : Type} (n : Nat) (l : List α) : List (List α) :=
  chunksGo (l.length + 1) n l

/-- Big-endian 32-bit word from four bytes. -/
def wordBE : List Nat → Nat
  | [b0, b1, b2, b3] => b0 % 256 * 16777216 + b1 % 256 * 65536 + b2 % 256 * 256 + b3 % 256
  | _ => 0

/-- Extend the message schedule `count` more words; `acc` holds the words
produced so far, most recent first. -/
def extendSchedule : Nat → List Nat → List Nat
  | 0, acc => acc
  | count + 1, acc =>
    let w := (smallSigma1 (acc.getD 1 0) + acc.getD 6 0 +
              smallSigma0 (acc.getD 14 0) + acc.getD 15 0) % w32
    extendSchedule count (w :: acc)

/-- One SHA-256 round: consume a `(K, W)` pair. -/
def roundStep (st : Hash8) (kw : Nat × Nat) : Hash8 :=
  let t1 := (st.h7 + bigSigma1 st.h4 + chFun st.h4 st.h5 st.h6 + kw.1 + kw.2) % w32
  let t2 := (bigSigma0 st.h0 + majFun st.h0 st.h1 st.h2) % w32
  ⟨(t1 + t2) % w32, st.h0, st.h1, st.h2, (st.h3 + t1) % w32, st.h4, st.h5, st.h6⟩

/-- Compress one 64-byte block into the state. -/
def compress (st : Hash8) (block : List Nat) : Hash8 :=
  let ws := (extendSchedule 48 (((chunks 4 block).map wordBE).reverse)).reverse
  let fin := (roundK.zip ws).foldl roundStep st
  ⟨(st.h0 + fin.h0) % w32, (st.h1 + fin.h1) % w32, (st.h2 + fin.h2) % w32,
   (st.h3 + fin.h3) % w32, (st.h4 + fin.h4) % w32, (st.h5 + fin.h5) % w32,
   (st.h6 + fin.h6) % w32, (st.h7 + fin.h7) % w32⟩

/-- Big-endian 8-byte encoding of the bit length. -/
def toBytes8BE (n : Nat) : List Nat :=
  [n / 2 ^ 56 % 256, n / 2 ^ 48 % 256, n / 2 ^ 40 % 256, n / 2 ^ 32 % 256,
   n / 2 ^ 24 % 256, n / 2 ^ 16 % 256, n / 2 ^ 8 % 256, n % 256]

/-- SHA-256 padding: append `0x80`, zeros, and the 64-bit message bit length. -/
def padMessage (msg : List Nat) : List Nat :=
  msg ++ [128] ++ List.replicate ((64 - (msg.length + 9) % 64) % 64) 0 ++ toBytes8BE (8 * msg.length)

/-- Big-endian bytes of one 32-bit word. -/
def word32Bytes (x : Nat) : List Nat :=
  [x / 2 ^ 24 % 256, x / 2 ^ 16 % 256, x / 2 ^ 8 % 256, x % 256]

/-- The 32 digest bytes of a final state. -/
def digestBytes (st : Hash8) : List Nat :=
  word32Bytes st.h0 ++ word32Bytes st.h1 ++ word32Bytes st.h2 ++ word32Bytes st.h3 ++
  word32Bytes st.h4 ++ word32Bytes st.h5 ++ word32Bytes st.h6 ++ word32Bytes st.h7

/-- SHA-256 of a byte sequence. -/
def sha256Bytes (msg : List Nat) : List Nat :=
  digestBytes ((chunks 64 (padMessage msg)).foldl compress initH)

/-- Lowercase hexadecimal digit. -/
def hexDigitChar (n : Nat) : Char :=
  if n < 10 then Char.ofNat (48 + n) else Char.ofNat (87 + n)

/-- Two lowercase hex characters of one byte. -/
def byteHex (b : Nat) : List Char :=
  [hexDigitChar (b / 16 % 16), hexDigitChar (b % 16)]

/-- Hex-encoded SHA-256 digest of a byte sequence (model of `hexdigest()`). -/
def sha256Hex (msg : List Nat) : String :=
  String.mk ((sha256Bytes msg).flatMap byteHex)

/-! ### File-system model, file collection and hashing -/

/-- A file-system entry yielded by `app_dir.rglob("*")`: its path relative to
the application root (POSIX-style), whether it is a directory, its bytes, and
its filesystem metadata (modification time), which contributes to copies made
with `shutil.copy2` but never to hashes or manifest content. -/
structure FSEntry where
  rel : String
  isDir : Bool
  content : List Nat
  mtime : Nat
deriving DecidableEq

/-- The full path string `str(p)` of an entry under the application root. -/
def fullPath (app_dir : String) (e : FSEntry) : String :=
  app_dir ++ "/" ++ e.rel

/-- Final component of a POSIX path string (model of `Path.name`). -/
def pathName (p : String) : String :=
  String.mk ((splitOnChar '/' p.data).getLastD [])

/-- Model of `p.name` for an entry. -/
def entryName (e : FSEntry) : String :=
  pathName e.rel

/-- Model of `s.startswith(pre)`. -/
def pyStartsWith (pre s : String) : Bool :=
  pre.data.isPrefixOf s.data

/-- The sort key used by `collect_files`: the character codes of the
lowercased full path string (`key=lambda x: str(x).lower()`), compared
lexicographically. -/
def sortKey (app_dir : String) (e : FSEntry) : List Nat :=
  (pyLower (fullPath app_dir e)).data.map Char.toNat

/-- Boolean comparison on sort keys. -/
def keyLe (app_dir : String) (a b : FSEntry) : Bool :=
  decide (sortKey app_dir a ≤ sortKey app_dir b)

/-- Insert into a sorted list, keeping the new element before strictly
greater elements and after earlier equal ones (stable). -/
def insertSorted {α : Type} (le : α → α → Bool) (x : α) : List α → List α
  | [] => [x]
  | y :: ys => if le x y then x :: y :: ys else y :: insertSorted le x ys

/-- Stable insertion sort (model of Python's stable `list.sort`). -/
def sortStable {α : Type} (le : α → α → Bool) : List α → List α
  | [] => []
  | x :: xs => insertSorted le x (sortStable le xs)

/-- The filter of `collect_files`: keep regular files whose name is not an
excluded name and does not start with the hidden-file marker `"."`. -/
def keepFile (excludes : List String) (e : FSEntry) : Bool :=
  !e.isDir && !(excludes.contains (entryName e)) && !(pyStartsWith "." (entryName e))

/-- Embedding of `collect_files`: raise `FileNotFoundError` when the root is
missing or not a directory, else filter the recursive enumeration and sort it
by the lowercased full path string. -/
def collect_files (app_dir : String) (dir_exists : Bool) (entries : List FSEntry)
    (excludes : List String) : Except String (List FSEntry) :=
  if !dir_exists then Except.error ("App dir not found: " ++ app_dir)
  else Except.ok (sortStable (keyLe app_dir) (entries.filter (keepFile excludes)))

/-- The running state of a `hashlib.sha256()` accumulator: the bytes fed so
far; `update` appends a chunk. -/
def hashUpdate (state chunk : List Nat) : List Nat :=
  state ++ chunk

/-- Embedding of `sha256_file`: read the file in 64 KiB chunks, feed each
chunk into the accumulator, and return the hex digest. -/
def sha256_file (f : FSEntry) : String :=
  sha256Hex ((chunks 65536 f.content).foldl hashUpdate [])

/-! ### Release staging, manifest building and serialization -/

/-- A file inside the release snapshot `releases/<version>/`: its path
relative to the snapshot root, its bytes, and its metadata (preserved by
`shutil.copy2`). -/
structure SnapEntry where
  rel : String
  content : List Nat
  mtime : Nat
deriving DecidableEq

/-- Embedding of `copy_release_files`: if the snapshot directory exists it is
removed in its entirety (`shutil.rmtree`), so `prior` is discarded whatever
it held; then every collected file is copied (with metadata, `copy2`) to the
snapshot under its path relative to the application root. -/
def copy_release_files (app_dir : String) (files : List FSEntry)
    (prior : List SnapEntry) : List SnapEntry :=
  files.map (fun f => ⟨f.rel, f.content, f.mtime⟩)

/-- One entry of the manifest's `files` list. -/
structure ManifestEntry where
  path : String
  url : String
  sha256 : String
deriving DecidableEq

/-- Model of `s.rstrip("/")`. -/
def pyRstripSlash (s : String) : String :=
  String.mk (s.data.reverse.dropWhile (fun c => c = '/')).reverse

/-- Embedding of `build_manifest_entries`: for each file, in the given order,
record its path relative to the application root (already held in `rel`), the
URL `url_base.rstrip("/") + "/" + rel`, and its SHA-256 digest. -/
def build_manifest_entries (app_dir : String) (files : List FSEntry)
    (url_base : String) : List ManifestEntry :=
  files.map (fun f =>
    { path := f.rel
      url := pyRstripSlash url_base ++ "/" ++ f.rel
      sha256 := sha256_file f })

/-- Escape one character as inside a JSON string literal. -/
def jsonEscChar (c : Char) : List Char :=
  if c = '"' then ['\\', '"']
  else if c = '\\' then ['\\', '\\']
  else if c = '\n' then ['\\', 'n']
  else if c = '\t' then ['\\', 't']
  else if c = '\x0d' then ['\\', 'r']
  else [c]

/-- A JSON string literal. -/
def jsonStr (s : String) : String :=
  "\"" ++ String.mk (s.data.flatMap jsonEscChar) ++ "\""

/-- Join strings with a separator. -/
def joinSep (sep : String) : List String → String
  | [] => ""
  | [x] => x
  | x :: y :: xs => x ++ sep ++ joinSep sep (y :: xs)

/-- One manifest entry as rendered by `json.dumps(..., indent=2)`. -/
def entryJson (e : ManifestEntry) : String :=
  "    \x7b\n      \"path\": " ++ jsonStr e.path ++
  ",\n      \"url\": " ++ jsonStr e.url ++
  ",\n      \"sha256\": " ++ jsonStr e.sha256 ++ "\n    \x7d"

/-- The manifest record as rendered by `json.dumps(manifest, indent=2)`,
with insertion field order (`sort_keys=False`). -/
def manifest_json (version : String) (entries : List ManifestEntry) : String :=
  "\x7b\n  \"version\": " ++ jsonStr version ++ ",\n  \"files\": " ++
  (if entries.isEmpty then "[]"
   else "[\n" ++ joinSep ",\n" (entries.map entryJson) ++ "\n  ]") ++
  "\n\x7d"

/-- Embedding of `write_manifest`: `Path.write_text` replaces whatever was at
the destination (`prior`) with the serialized record plus a trailing newline;
nothing of `prior` survives. -/
def write_manifest (prior : Option String) (version : String)
    (entries : List ManifestEntry) : String :=
  manifest_json version entries ++ "\n"

/-! ### The driver (`main`) -/

/-- The default excluded file names. -/
def DEFAULT_EXCLUDES : List String :=
  [".DS_Store", "Thumbs.db"]

/-- The command-line configuration of `main` after `argparse`. -/
structure Args where
  user : String
  repo : String
  branch : String
  app_dir : String
  manifest_path : String
  releases_root : String
  version : Option String
  no_copy : Bool
  exclude : List String

/-- Observable outcome of a completed run of `main`: the exit code, the
content written to the manifest path (if any), and the release snapshot
written (if staging ran). -/
structure BuildOutcome where
  exitCode : Nat
  manifest_written : Option String
  snapshot_written : Option (List SnapEntry)
deriving DecidableEq

/-- The `url_base` composed in `main`, pointing at `releases/<version>`. -/
def urlBase (args : Args) (version : String) : String :=
  "https://raw.githubusercontent.com/" ++ args.user ++ "/" ++ args.repo ++ "/" ++
  args.branch ++ "/" ++ args.releases_root ++ "/" ++ version

/-- Embedding of `main` past argument parsing: resolve the version, collect
files, abort with exit code 2 when none are found, stage the release unless
`--no-copy`, build the manifest entries and write the manifest.  An uncaught
Python exception (`FileNotFoundError`, `ValueError`) is `Except.error`. -/
def run_build (args : Args) (dir_exists : Bool) (entries : List FSEntry)
    (prior_manifest : ManifestFile) (prior_manifest_text : Option String)
    (prior_snapshot : List SnapEntry) : Except String BuildOutcome := do
  let excludes := DEFAULT_EXCLUDES ++ args.exclude
  let version ← resolve_version args.version prior_manifest
  let files ← collect_files args.app_dir dir_exists entries excludes
  if files.isEmpty then
    return ⟨2, none, none⟩
  let snapshot :=
    if args.no_copy then none
    else some (copy_release_files args.app_dir files prior_snapshot)
  let manifest_entries := build_manifest_entries args.app_dir files (urlBase args version)
  return ⟨0, some (write_manifest prior_manifest_text version manifest_entries), snapshot⟩

/-- Only the manifest bytes written by a run (`none` when the run failed or
wrote nothing). -/
def manifestOf : Except String BuildOutcome → Option String
  | Except.ok o => o.manifest_written
  | Except.error _ => none

/-- The part of a file-system entry that the manifest depends on: everything
except filesystem metadata. -/
def stripMeta (e : FSEntry) : String × Bool × List Nat :=
  (e.rel, e.isDir, e.content)

/-- Example directory listing for the ordering scenario: files `a.txt`,
`sub/b.bin`, `B.TXT` (and the `sub` directory itself). -/
def exampleOrderFS : List FSEntry :=
  [⟨"sub", true, [], 0⟩,
   ⟨"sub/b.bin", false, [1, 2], 0⟩,
   ⟨"B.TXT", false, [3], 0⟩,
   ⟨"a.txt", false, [4], 0⟩]

/-! ### Lemmas about version loading and resolution -/

/-- A version returned by `load_existing_version` is never the empty string
(the source checks `v.strip()` for truthiness before returning it). -/
theorem load_existing_version_ne_empty (file : ManifestFile) (v : String)
    (h : load_existing_version file = some v) : v ≠ "" := by
  match file with
  | none => simp [load_existing_version] at h
  | some none => simp [load_existing_version] at h
  | some (some j) =>
    cases j with
    | obj kvs =>
      simp only [load_existing_version] at h
      cases hg : jsonGet kvs "version" with
      | none => rw [hg] at h; simp at h
      | some jv =>
        rw [hg] at h
        cases jv with
        | str s =>
          dsimp only at h
          by_cases hs : pyStrip s ≠ ""
          · rw [if_pos hs] at h
            cases h
            exact hs
          · rw [if_neg hs] at h; simp at h
        | null => simp at h
        | bool b => simp at h
        | num n => simp at h
        | arr elems => simp at h
        | obj kvs2 => simp at h
    | null => simp [load_existing_version] at h
    | bool b => simp [load_existing_version] at h
    | num n => simp [load_existing_version] at h
    | str s => simp [load_existing_version] at h
    | arr elems => simp [load_existing_version] at h

/-- C10: `load_existing_version` is total (it returns an `Option`, never
raising), and it returns a version string — the `version` field stripped of
surrounding whitespace — if and only if the manifest file exists, parses as
JSON to an object, and that object's `version` field is a string that is
non-empty after stripping; in every other case it returns `none`. -/
theorem load_existing_version_spec (file : ManifestFile) (s : String) :
    load_existing_version file = some s ↔
      ∃ kvs v, file = some (some (Json.obj kvs)) ∧
        jsonGet kvs "version" = some (Json.str v) ∧
        pyStrip v ≠ "" ∧ s = pyStrip v := by
  constructor
  · intro h
    match file with
    | none => simp [load_existing_version] at h
    | some none => simp [load_existing_version] at h
    | some (some j) =>
      cases j with
      | obj kvs =>
        simp only [load_existing_version] at h
        cases hg : jsonGet kvs "version" with
        | none => rw [hg] at h; simp at h
        | some jv =>
          rw [hg] at h
          cases jv with
          | str v =>
            dsimp only at h
            by_cases hs : pyStrip v ≠ ""
            · rw [if_pos hs] at h
              cases h
              exact ⟨kvs, v, rfl, hg, hs, rfl⟩
            · rw [if_neg hs] at h; simp at h
          | null => simp at h
          | bool b => simp at h
          | num n => simp at h
          | arr elems => simp at h
          | obj kvs2 => simp at h
      | null => simp [load_existing_version] at h
      | bool b => simp [load_existing_version] at h
      | num n => simp [load_existing_version] at h
      | str v => simp [load_existing_version] at h
      | arr elems => simp [load_existing_version] at h
  · rintro ⟨kvs, v, hf, hg, hs, hsv⟩
    subst hf
    subst hsv
    simp [load_existing_version, hg, hs]

/-- C1 counterexample: `main` does not validate an explicit `--version`
override at all — `"1.x.0"` is accepted verbatim instead of signalling
`ValidationError`, and `"1.2"` resolves to `"1.2"`, not `"1.2.0"`. -/
theorem override_not_validated_cex :
    resolve_version (some "1.x.0") none = Except.ok "1.x.0" ∧
    resolve_version (some "1.2") none = Except.ok "1.2" ∧
    resolve_version (some "1.2") none ≠ Except.ok "1.2.0" := by
  refine ⟨rfl, rfl, ?_⟩
  intro h
  rw [(rfl : resolve_version (some "1.2") none = Except.ok "1.2")] at h
  injection h with h
  exact absurd h (by decide)

/-- C1 amended: a non-empty explicit version override is used verbatim, with
no validation, zero-padding or truncation (`bump_patch` is only ever applied
to the prior manifest's version, never to the override). -/
theorem override_used_verbatim (s : String) (file : ManifestFile) (h : s ≠ "") :
    resolve_version (some s) file = Except.ok s := by
  simp [resolve_version, h]

/-- Witness for C1's amended theorem at override `"1.x.0"`. -/
theorem override_used_verbatim_witness :
    resolve_version (some "1.x.0") none = Except.ok "1.x.0" :=
  override_used_verbatim "1.x.0" none (by decide)

/-- C2 counterexample: with no override, a prior manifest that exists and
parses as JSON with version string `"1.x.0"` does not fall back to "no prior
version": `bump_patch` raises `ValueError`, so resolution fails. -/
theorem resolve_prior_nonnumeric_raises_cex :
    resolve_version none (some (some (Json.obj [("version", Json.str "1.x.0")]))) =
      Except.error "Version must look like semver (e.g., 0.0.1). Got: 1.x.0" := rfl

/-- C2 amended: with no override, a prior manifest that is absent, unreadable,
not valid JSON, or without a usable `version` string is treated as no prior
version and resolution succeeds with `"0.0.1"`; but when a version string IS
loaded, resolution defers to `bump_patch`, which raises `ValueError` on
non-numeric components such as `"1.x.0"`. -/
theorem resolve_prior_fallback_amended :
    (∀ file : ManifestFile, load_existing_version file = none →
        resolve_version none file = Except.ok "0.0.1") ∧
    (∀ (file : ManifestFile) (v : String), load_existing_version file = some v →
        resolve_version none file = bump_patch v) ∧
    (∃ e, bump_patch "1.x.0" = Except.error e) := by
  refine ⟨?_, ?_, ⟨_, rfl⟩⟩
  · intro file h
    simp [resolve_version, resolve_from_prior, h]
  · intro file v h
    have hne := load_existing_version_ne_empty file v h
    simp [resolve_version, resolve_from_prior, h, hne]

/-- Witness for C2's amended theorem: an unreadable manifest falls back to
`"0.0.1"`, and a loaded version defers to `bump_patch`. -/
theorem resolve_prior_fallback_amended_witness :
    resolve_version none (some none) = Except.ok "0.0.1" ∧
    resolve_version none (some (some (Json.obj [("version", Json.str "2.0.0")]))) =
      bump_patch "2.0.0" :=
  ⟨resolve_prior_fallback_amended.1 (some none) rfl,
   resolve_prior_fallback_amended.2.1 (some (some (Json.obj [("version", Json.str "2.0.0")]))) "2.0.0" rfl⟩

/-- C3: with no override, a loaded prior version whose stripped form splits
into exactly three dot-separated components, each parsing as an integer,
resolves to that triple with patch incremented by exactly 1 and major and
minor unchanged; and when no prior version is usable the resolved version is
`"0.0.1"`. -/
theorem resolve_bump_and_default :
    (∀ (file : ManifestFile) (v : String) (x y z : List Char) (a b c : Int),
        load_existing_version file = some v →
        splitOnChar '.' (pyStripChars v.data) = [x, y, z] →
        pyIntChars x = some a → pyIntChars y = some b → pyIntChars z = some c →
        resolve_version none file =
          Except.ok (toString a ++ "." ++ toString b ++ "." ++ toString (c + 1))) ∧
    (∀ file : ManifestFile, load_existing_version file = none →
        resolve_version none file = Except.ok "0.0.1") := by
  constructor
  · intro file v x y z a b c hload hsplit hx hy hz
    have hne := load_existing_version_ne_empty file v hload
    simp only [resolve_version, resolve_from_prior, hload, if_pos hne, ne_eq,
      not_false_iff, if_true]
    simp [bump_patch, hsplit, hx, hy, hz]
  · intro file h
    simp [resolve_version, resolve_from_prior, h]

/-- Witness for C3 at prior version `"1.2.3"` (resolving to `"1.2.4"`) and at
an absent prior manifest (resolving to `"0.0.1"`). -/
theorem resolve_bump_and_default_witness :
    resolve_version none (some (some (Json.obj [("version", Json.str "1.2.3")]))) =
      Except.ok "1.2.4" ∧
    resolve_version none none = Except.ok "0.0.1" := by
  constructor
  · exact resolve_bump_and_default.1 (some (some (Json.obj [("version", Json.str "1.2.3")])))
      "1.2.3" ['1'] ['2'] ['3'] 1 2 3 rfl rfl rfl rfl rfl
  · exact resolve_bump_and_default.2 none rfl


/-! ### Lemmas about sorting, chunking and hex encoding -/

theorem mem_insertSorted {α : Type} (le : α → α → Bool) (x a : α) :
    ∀ l : List α, a ∈ insertSorted le x l ↔ a = x ∨ a ∈ l := by
  intro l
  induction l with
  | nil => simp [insertSorted]
  | cons y ys ih =>
    simp only [insertSorted]
    by_cases h : le x y = true
    · rw [if_pos h]
      simp only [List.mem_cons]
    · rw [if_neg h]
      simp only [List.mem_cons, ih]
      tauto

theorem mem_sortStable {α : Type} (le : α → α → Bool) (a : α) :
    ∀ l : List α, a ∈ sortStable le l ↔ a ∈ l := by
  intro l
  induction l with
  | nil => simp [sortStable]
  | cons y ys ih =>
    simp only [sortStable, mem_insertSorted, ih, List.mem_cons]

theorem pairwise_insertSorted {α : Type} (le : α → α → Bool)
    (total : ∀ a b, le a b = true ∨ le b a = true)
    (htrans : ∀ a b c, le a b = true → le b c = true → le a c = true)
    (x : α) :
    ∀ l : List α, l.Pairwise (fun a b => le a b = true) →
      (insertSorted le x l).Pairwise (fun a b => le a b = true) := by
  intro l
  induction l with
  | nil => intro _; simp [insertSorted]
  | cons y ys ih =>
    intro hp
    rcases List.pairwise_cons.mp hp with ⟨hy, hys⟩
    simp only [insertSorted]
    by_cases h : le x y = true
    · rw [if_pos h]
      refine List.pairwise_cons.mpr ⟨?_, hp⟩
      intro z hz
      rcases List.mem_cons.mp hz with rfl | hz
      · exact h
      · exact htrans x y z h (hy z hz)
    · rw [if_neg h]
      refine List.pairwise_cons.mpr ⟨?_, ih hys⟩
      intro z hz
      rcases (mem_insertSorted le x z ys).mp hz with hzx | hz
      · rw [hzx]
        rcases total x y with hxy | hyx
        · exact absurd hxy h
        · exact hyx
      · exact hy z hz

theorem pairwise_sortStable {α : Type} (le : α → α → Bool)
    (total : ∀ a b, le a b = true ∨ le b a = true)
    (htrans : ∀ a b c, le a b = true → le b c = true → le a c = true) :
    ∀ l : List α, (sortStable le l).Pairwise (fun a b => le a b = true) := by
  intro l
  induction l with
  | nil => simp [sortStable]
  | cons y ys ih => exact pairwise_insertSorted le total htrans y _ ih

theorem insertSorted_map_comm {α β : Type} (le : α → α → Bool) (le' : β → β → Bool)
    (f : α → β) (hf : ∀ a b, le' (f a) (f b) = le a b) (x : α) :
    ∀ l : List α, insertSorted le' (f x) (l.map f) = (insertSorted le x l).map f := by
  intro l
  induction l with
  | nil => simp [insertSorted]
  | cons y ys ih =>
    simp only [List.map_cons, insertSorted, hf]
    by_cases h : le x y = true
    · rw [if_pos h, if_pos h]
      simp
    · rw [if_neg h, if_neg h]
      simp [ih]

theorem sortStable_map_comm {α β : Type} (le : α → α → Bool) (le' : β → β → Bool)
    (f : α → β) (hf : ∀ a b, le' (f a) (f b) = le a b) :
    ∀ l : List α, sortStable le' (l.map f) = (sortStable le l).map f := by
  intro l
  induction l with
  | nil => simp [sortStable]
  | cons y ys ih =>
    simp only [List.map_cons, sortStable, ih]
    exact insertSorted_map_comm le le' f hf y (sortStable le ys)

theorem chunksGo_join {α : Type} (n : Nat) (hn : n ≠ 0) :
    ∀ (fuel : Nat) (l : List α), l.length < fuel → (chunksGo fuel n l).flatten = l := by
  intro fuel
  induction fuel with
  | zero => intro l h; omega
  | succ fuel ih =>
    intro l hl
    simp only [chunksGo]
    by_cases he : l.isEmpty
    · rw [if_pos (by simp [he])]
      rw [List.isEmpty_iff] at he
      simp [he]
    · have hlpos : 0 < l.length := by
        cases l with
        | nil => simp at he
        | cons a as => simp
      have hcond : (l.isEmpty || n == 0) = false := by
        simp only [Bool.or_eq_false_iff]
        exact ⟨by simpa using he, by simpa using hn⟩
      rw [if_neg (by simp [hcond])]
      have hlen : (l.drop n).length < fuel := by
        rw [List.length_drop]
        omega
      rw [List.flatten_cons, ih (l.drop n) hlen, List.take_append_drop]

theorem chunks_join {α : Type} (n : Nat) (hn : n ≠ 0) (l : List α) :
    (chunks n l).flatten = l :=
  chunksGo_join n hn (l.length + 1) l (Nat.lt_succ_self _)

theorem foldl_hashUpdate (l : List (List Nat)) :
    ∀ acc : List Nat, l.foldl hashUpdate acc = acc ++ l.flatten := by
  induction l with
  | nil => intro acc; simp [List.foldl]
  | cons c cs ih =>
    intro acc
    simp only [List.foldl, List.flatten_cons, ih, hashUpdate]
    rw [List.append_assoc]

theorem length_flatMap_byteHex (l : List Nat) :
    (l.flatMap byteHex).length = 2 * l.length := by
  induction l with
  | nil => simp
  | cons b bs ih =>
    simp only [List.flatMap_cons, List.length_append, ih, byteHex, List.length_cons,
      List.length_nil]
    omega

theorem digestBytes_length (st : Hash8) : (digestBytes st).length = 32 := by
  simp [digestBytes, word32Bytes]

theorem sha256Hex_length (m : List Nat) : (sha256Hex m).length = 64 := by
  show ((sha256Bytes m).flatMap byteHex).length = 64
  rw [length_flatMap_byteHex]
  simp only [sha256Bytes, digestBytes_length]

theorem hexDigitChar_mem : ∀ n < 16, hexDigitChar n ∈ ("0123456789abcdef").data := by
  decide

theorem mem_sha256Hex_hex (m : List Nat) (c : Char) (hc : c ∈ (sha256Hex m).data) :
    c ∈ ("0123456789abcdef").data := by
  have hc2 : c ∈ (sha256Bytes m).flatMap byteHex := hc
  rcases List.mem_flatMap.mp hc2 with ⟨b, _, hcb⟩
  simp only [byteHex, List.mem_cons, List.not_mem_nil, or_false] at hcb
  rcases hcb with rfl | rfl
  · exact hexDigitChar_mem _ (Nat.mod_lt _ (by omega))
  · exact hexDigitChar_mem _ (Nat.mod_lt _ (by omega))

/-- C6: for every file, the chunked hash computation of `sha256_file` (64 KiB
chunks fed into the accumulator) equals the SHA-256 hex digest of the file's
entire byte content; the digest is a 64-character string over the lowercase
hex alphabet, and it depends only on the file's bytes, not on its path or
filesystem metadata. -/
theorem sha256_file_spec (f : FSEntry) :
    sha256_file f = sha256Hex f.content ∧
    (sha256_file f).length = 64 ∧
    (∀ c ∈ (sha256_file f).data, c ∈ ("0123456789abcdef").data) ∧
    (∀ g : FSEntry, f.content = g.content → sha256_file f = sha256_file g) := by
  have key : ∀ e : FSEntry, sha256_file e = sha256Hex e.content := by
    intro e
    simp only [sha256_file]
    rw [foldl_hashUpdate, List.nil_append, chunks_join 65536 (by omega)]
  refine ⟨key f, ?_, ?_, ?_⟩
  · rw [key f]
    exact sha256Hex_length _
  · intro c hc
    rw [key f] at hc
    exact mem_sha256Hex_hex _ c hc
  · intro g hceq
    rw [key f, key g, hceq]

set_option maxRecDepth 400000 in
/-- Witness for C6 at a concrete three-byte file (content `x=1`): its chunked
digest equals the whole-content digest, and the concrete digest character
picked out is a lowercase hex character. -/
theorem sha256_file_spec_witness :
    sha256_file ⟨"x.py", false, [120, 61, 49], 7⟩ = sha256Hex [120, 61, 49] ∧
    '1' ∈ ("0123456789abcdef").data :=
  ⟨(sha256_file_spec ⟨"x.py", false, [120, 61, 49], 7⟩).1,
   (sha256_file_spec ⟨"x.py", false, [120, 61, 49], 7⟩).2.2.1 '1' (by decide)⟩


/-! ### Lemmas about file collection -/

theorem keyLe_total (d : String) (a b : FSEntry) :
    keyLe d a b = true ∨ keyLe d b a = true := by
  simp only [keyLe, decide_eq_true_eq]
  exact le_total _ _

theorem keyLe_trans (d : String) (a b c : FSEntry) :
    keyLe d a b = true → keyLe d b c = true → keyLe d a c = true := by
  simp only [keyLe, decide_eq_true_eq]
  exact le_trans

theorem collect_files_ok_eq (d : String) (ok : Bool) (entries : List FSEntry)
    (ex : List String) (files : List FSEntry)
    (hc : collect_files d ok entries ex = Except.ok files) :
    files = sortStable (keyLe d) (entries.filter (keepFile ex)) := by
  cases ok with
  | false => simp [collect_files] at hc
  | true =>
    simp only [collect_files, Bool.not_true, Bool.false_eq_true, if_false,
      Except.ok.injEq] at hc
    exact hc.symm

/-- C4: for every collection result, the file sequence is sorted by
case-insensitive lexicographic comparison of the (lowercased) full path
string, `build_manifest_entries` preserves that order exactly (its `path`
column is the `rel` column of the input, in order), and on the example
directory holding `a.txt`, `sub/b.bin`, `B.TXT` the collected order is
`a.txt`, `B.TXT`, `sub/b.bin`. -/
theorem manifest_order_spec :
    (∀ (d : String) (ok : Bool) (entries : List FSEntry) (ex : List String)
        (files : List FSEntry) (u : String),
        collect_files d ok entries ex = Except.ok files →
        files.Pairwise (fun a b => sortKey d a ≤ sortKey d b) ∧
        (build_manifest_entries d files u).map ManifestEntry.path =
          files.map FSEntry.rel) ∧
    (collect_files "app" true exampleOrderFS DEFAULT_EXCLUDES).map
        (List.map FSEntry.rel) = Except.ok ["a.txt", "B.TXT", "sub/b.bin"] := by
  constructor
  · intro d ok entries ex files u hc
    have hfiles := collect_files_ok_eq d ok entries ex files hc
    constructor
    · rw [hfiles]
      have hp := pairwise_sortStable (keyLe d) (keyLe_total d) (keyLe_trans d)
        (entries.filter (keepFile ex))
      exact hp.imp (fun h => by simpa only [keyLe, decide_eq_true_eq] using h)
    · simp only [build_manifest_entries, List.map_map]
      rfl
  · rfl

/-- Witness for C4: the general part applied to the example directory, giving
the sortedness of the concrete collected sequence. -/
theorem manifest_order_spec_witness :
    ([(⟨"a.txt", false, [4], 0⟩ : FSEntry), ⟨"B.TXT", false, [3], 0⟩,
      ⟨"sub/b.bin", false, [1, 2], 0⟩]).Pairwise
      (fun a b => sortKey "app" a ≤ sortKey "app" b) :=
  (manifest_order_spec.1 "app" true exampleOrderFS DEFAULT_EXCLUDES
    [⟨"a.txt", false, [4], 0⟩, ⟨"B.TXT", false, [3], 0⟩, ⟨"sub/b.bin", false, [1, 2], 0⟩]
    "u" rfl).1

/-- C9: no collected file, and no manifest entry, has a name that is in the
configured exclude set or begins with the hidden-file marker `"."`; in
particular a file named `.DS_Store` never appears, whatever the excludes. -/
theorem exclusion_spec :
    ∀ (d : String) (ok : Bool) (entries : List FSEntry) (ex : List String)
      (files : List FSEntry),
      collect_files d ok entries ex = Except.ok files →
      (∀ f ∈ files, entryName f ∉ ex ∧ pyStartsWith "." (entryName f) = false ∧
          entryName f ≠ ".DS_Store") ∧
      (∀ (u : String) (e : ManifestEntry), e ∈ build_manifest_entries d files u →
          pathName e.path ∉ ex ∧ pyStartsWith "." (pathName e.path) = false ∧
          pathName e.path ≠ ".DS_Store") := by
  intro d ok entries ex files hc
  have hfiles := collect_files_ok_eq d ok entries ex files hc
  have hkeep : ∀ f ∈ files, keepFile ex f = true := by
    intro f hf
    rw [hfiles] at hf
    have hmem := (mem_sortStable (keyLe d) f _).mp hf
    exact (List.mem_filter.mp hmem).2
  have hprops : ∀ f ∈ files, entryName f ∉ ex ∧
      pyStartsWith "." (entryName f) = false ∧ entryName f ≠ ".DS_Store" := by
    intro f hf
    have hk := hkeep f hf
    simp only [keepFile, Bool.and_eq_true, Bool.not_eq_true'] at hk
    obtain ⟨⟨hdir, hex⟩, hdot⟩ := hk
    refine ⟨by simpa using hex, hdot, ?_⟩
    intro hds
    rw [hds] at hdot
    exact absurd hdot (by decide)
  refine ⟨hprops, ?_⟩
  intro u e he
  simp only [build_manifest_entries, List.mem_map] at he
  rcases he with ⟨f, hf, rfl⟩
  exact hprops f hf

/-- Witness for C9: a directory holding `.DS_Store`, a dotfile, `Thumbs.db`
and `main.py` collects only `main.py`, whose name is clean. -/
theorem exclusion_spec_witness :
    entryName ⟨"main.py", false, [1], 0⟩ ∉ DEFAULT_EXCLUDES ∧
    pyStartsWith "." (entryName ⟨"main.py", false, [1], 0⟩) = false ∧
    entryName ⟨"main.py", false, [1], 0⟩ ≠ ".DS_Store" :=
  (exclusion_spec "app" true
    [⟨".DS_Store", false, [], 0⟩, ⟨".hidden", false, [], 0⟩,
     ⟨"Thumbs.db", false, [], 0⟩, ⟨"main.py", false, [1], 0⟩]
    DEFAULT_EXCLUDES [⟨"main.py", false, [1], 0⟩] rfl).1
    ⟨"main.py", false, [1], 0⟩ (by simp)

/-- C7: release staging first deletes any existing snapshot in its entirety,
so the result never depends on prior snapshot content (full overwrite, not
merge); every collected file is copied into the snapshot under its path
relative to the application root with its metadata; and staging twice with
unchanged inputs leaves the snapshot identical to a single run. -/
theorem staging_spec :
    (∀ (d : String) (files : List FSEntry) (p₁ p₂ : List SnapEntry),
        copy_release_files d files p₁ = copy_release_files d files p₂) ∧
    (∀ (d : String) (files : List FSEntry) (p : List SnapEntry) (f : FSEntry),
        f ∈ files →
        (⟨f.rel, f.content, f.mtime⟩ : SnapEntry) ∈ copy_release_files d files p) ∧
    (∀ (d : String) (files : List FSEntry) (p : List SnapEntry),
        copy_release_files d files (copy_release_files d files p) =
          copy_release_files d files p) := by
  refine ⟨fun d files p₁ p₂ => rfl, ?_, fun d files p => rfl⟩
  intro d files p f hf
  simp only [copy_release_files, List.mem_map]
  exact ⟨f, hf, rfl⟩

/-- Witness for C7: the copied-file clause at a concrete file. -/
theorem staging_spec_witness :
    (⟨"lib/x.py", [120], 9⟩ : SnapEntry) ∈
      copy_release_files "app" [⟨"lib/x.py", false, [120], 9⟩]
        [⟨"stale", [0], 0⟩] :=
  staging_spec.2.1 "app" [⟨"lib/x.py", false, [120], 9⟩] [⟨"stale", [0], 0⟩]
    ⟨"lib/x.py", false, [120], 9⟩ (by simp)


/-- Unfolding of `run_build` once the version is resolved and the collection
succeeds. -/
theorem run_build_ok (args : Args) (ok : Bool) (entries : List FSEntry)
    (pm : ManifestFile) (pt : Option String) (ps : List SnapEntry)
    (v : String) (files : List FSEntry)
    (hres : resolve_version args.version pm = Except.ok v)
    (hcol : collect_files args.app_dir ok entries (DEFAULT_EXCLUDES ++ args.exclude) =
      Except.ok files) :
    run_build args ok entries pm pt ps =
      if files.isEmpty then Except.ok ⟨2, none, none⟩
      else Except.ok ⟨0,
        some (write_manifest pt v (build_manifest_entries args.app_dir files (urlBase args v))),
        if args.no_copy then none
        else some (copy_release_files args.app_dir files ps)⟩ := by
  cases files with
  | nil =>
    simp only [run_build, hres, hcol]
    rfl
  | cons f fs =>
    simp only [run_build, hres, hcol]
    rfl


theorem resolve_version_truthy (v : String) (pm : ManifestFile) (h : v ≠ "") :
    resolve_version (some v) pm = Except.ok v := by
  simp [resolve_version, h]

/-- C8: an empty collection result is a valid outcome of `collect_files`
(not an error), and when collection yields no files the build aborts with the
distinct non-zero exit code 2, writing neither a manifest nor a release
snapshot. -/
theorem empty_build_spec :
    (∀ (d : String) (ex : List String), collect_files d true [] ex = Except.ok []) ∧
    (∀ (args : Args) (ok : Bool) (entries : List FSEntry) (pm : ManifestFile)
        (pt : Option String) (ps : List SnapEntry) (v : String),
        resolve_version args.version pm = Except.ok v →
        collect_files args.app_dir ok entries (DEFAULT_EXCLUDES ++ args.exclude) =
          Except.ok [] →
        run_build args ok entries pm pt ps = Except.ok ⟨2, none, none⟩ ∧ (2 : Nat) ≠ 0) := by
  constructor
  · intro d ex
    rfl
  · intro args ok entries pm pt ps v hres hcol
    refine ⟨?_, by decide⟩
    rw [run_build_ok args ok entries pm pt ps v [] hres hcol]
    rfl

/-- Witness for C8: a run over an empty directory exits with code 2 and
writes nothing. -/
theorem empty_build_spec_witness :
    run_build ⟨"u", "r", "main", "app", "ota/manifest.json", "releases",
        some "0.0.2", false, []⟩ true [] none none [] =
      Except.ok ⟨2, none, none⟩ :=
  (empty_build_spec.2 ⟨"u", "r", "main", "app", "ota/manifest.json", "releases",
      some "0.0.2", false, []⟩ true [] none none [] "0.0.2" rfl rfl).1

/-- C5: hashing depends only on the byte content (hashing the same bytes
twice yields the same digest), and a whole build with the same explicit
version and URL configuration over an unchanged set of paths and contents
(metadata free to differ) produces byte-identical manifest output, whatever
manifest text or snapshot previously existed at the destination — the write
is a full replacement, never a merge. -/
theorem build_deterministic :
    (∀ f g : FSEntry, f.content = g.content → sha256_file f = sha256_file g) ∧
    (∀ (args : Args) (ok : Bool) (entries : List FSEntry) (g : FSEntry → Nat)
        (pm₁ pm₂ : ManifestFile) (pt₁ pt₂ : Option String)
        (ps₁ ps₂ : List SnapEntry) (v : String),
        args.version = some v → v ≠ "" →
        manifestOf (run_build args ok
            (entries.map (fun e => ⟨e.rel, e.isDir, e.content, g e⟩)) pm₁ pt₁ ps₁) =
        manifestOf (run_build args ok entries pm₂ pt₂ ps₂)) := by
  constructor
  · intro f g h
    simp only [sha256_file, h]
  · intro args ok entries g pm₁ pm₂ pt₁ pt₂ ps₁ ps₂ v hv hne
    have hres₁ : resolve_version args.version pm₁ = Except.ok v := by
      rw [hv]; exact resolve_version_truthy v pm₁ hne
    have hres₂ : resolve_version args.version pm₂ = Except.ok v := by
      rw [hv]; exact resolve_version_truthy v pm₂ hne
    cases ok with
    | false =>
      simp only [run_build, hres₁, hres₂, collect_files]
      rfl
    | true =>
      have hmapLe : ∀ a b : FSEntry,
          keyLe args.app_dir (⟨a.rel, a.isDir, a.content, g a⟩ : FSEntry)
            (⟨b.rel, b.isDir, b.content, g b⟩ : FSEntry) = keyLe args.app_dir a b :=
        fun a b => rfl
      have hcol₂ : collect_files args.app_dir true entries
          (DEFAULT_EXCLUDES ++ args.exclude) =
          Except.ok (sortStable (keyLe args.app_dir)
            (entries.filter (keepFile (DEFAULT_EXCLUDES ++ args.exclude)))) := rfl
      have hcol₁ : collect_files args.app_dir true
          (entries.map (fun e => ⟨e.rel, e.isDir, e.content, g e⟩))
          (DEFAULT_EXCLUDES ++ args.exclude) =
          Except.ok ((sortStable (keyLe args.app_dir)
            (entries.filter (keepFile (DEFAULT_EXCLUDES ++ args.exclude)))).map
              (fun e => ⟨e.rel, e.isDir, e.content, g e⟩)) := by
        simp only [collect_files, Bool.not_true, Bool.false_eq_true, if_false]
        rw [List.filter_map]
        rw [show (keepFile (DEFAULT_EXCLUDES ++ args.exclude) ∘
              fun e : FSEntry => (⟨e.rel, e.isDir, e.content, g e⟩ : FSEntry)) =
            keepFile (DEFAULT_EXCLUDES ++ args.exclude) from rfl]
        rw [sortStable_map_comm (keyLe args.app_dir) (keyLe args.app_dir) _ hmapLe]
      rw [run_build_ok args true _ pm₁ pt₁ ps₁ v _ hres₁ hcol₁,
          run_build_ok args true entries pm₂ pt₂ ps₂ v _ hres₂ hcol₂]
      cases hfs : sortStable (keyLe args.app_dir)
          (entries.filter (keepFile (DEFAULT_EXCLUDES ++ args.exclude))) with
      | nil => rfl
      | cons f fs =>
        simp only [List.map_cons, List.isEmpty_cons, if_false, Bool.false_eq_true]
        have hentries : build_manifest_entries args.app_dir
            ((⟨f.rel, f.isDir, f.content, g f⟩ : FSEntry) ::
              fs.map (fun e => ⟨e.rel, e.isDir, e.content, g e⟩))
            (urlBase args v) =
            build_manifest_entries args.app_dir (f :: fs) (urlBase args v) := by
          simp only [build_manifest_entries, List.map_cons, List.map_map]
          rfl
        rw [hentries]
        rfl


/-- Witness for C5: two concrete runs over the same one-file directory that
differ in file metadata, prior manifest state and prior snapshot produce the
same manifest bytes. -/
theorem build_deterministic_witness :
    manifestOf (run_build
        ⟨"u", "r", "main", "app", "ota/manifest.json", "releases", some "0.0.2", false, []⟩
        true [⟨"main.py", false, [112], 99⟩] (some none) (some "old") [⟨"x", [0], 0⟩]) =
    manifestOf (run_build
        ⟨"u", "r", "main", "app", "ota/manifest.json", "releases", some "0.0.2", false, []⟩
        true [⟨"main.py", false, [112], 1⟩] none none []) :=
  build_deterministic.2
    ⟨"u", "r", "main", "app", "ota/manifest.json", "releases", some "0.0.2", false, []⟩
    true [⟨"main.py", false, [112], 1⟩] (fun _ => 99) (some none) none (some "old") none
    [⟨"x", [0], 0⟩] [] "0.0.2" rfl (by decide)

end OTA
